import Mathlib

/-!
Verification of the LLM-response-to-structured-data pipeline of the
`testserve_frontend_new_python` repository.

The Python source is shallowly embedded: JSON values become the inductive
`JValue`, Python dicts become association lists with Python's dict semantics
(ordered, insert-at-end, update-in-place), Python exceptions become `Except`,
and each network call to the LLM completion service is abstracted as an
oracle function passed in as a parameter.  Every definition is translated
from the corresponding function in `src/`.
-/

/-- A parsed JSON value, as produced by Python's `json.loads`.
Numbers are modelled in their integer fragment (every JSON literal appearing
in this development is an integer). -/
inductive JValue where
  | null : JValue
  | bool : Bool → JValue
  | num : Int → JValue
  | str : String → JValue
  | arr : List JValue → JValue
  | obj : List (String × JValue) → JValue

/-- Python `d.get(k)` on a dict modelled as an association list. -/
def objGet (fs : List (String × JValue)) (k : String) : Option JValue :=
  (fs.find? (fun p => p.1 == k)).map (fun p => p.2)

/-- Python `d.pop(k, None)`: the binding for `k` is removed. -/
def objPop (fs : List (String × JValue)) (k : String) : List (String × JValue) :=
  fs.filter (fun p => !(p.1 == k))

/-- Python `d.setdefault(k, v)`: leave `d` unchanged when `k` is bound,
otherwise append the new binding at the end (dict insertion order). -/
def objSetdefault (fs : List (String × JValue)) (k : String) (v : JValue) :
    List (String × JValue) :=
  if fs.any (fun p => p.1 == k) then fs else fs ++ [(k, v)]

/-- Python `d[k] = v`: update in place when `k` is bound (keeping its
insertion position), otherwise append at the end. -/
def objSet (fs : List (String × JValue)) (k : String) (v : JValue) :
    List (String × JValue) :=
  if fs.any (fun p => p.1 == k) then
    fs.map (fun p => if p.1 == k then (k, v) else p)
  else fs ++ [(k, v)]

/-- `startsWith pre l` : `pre` is a prefix of `l` (over characters). -/
def startsWith : List Char → List Char → Bool
  | [], _ => true
  | _ :: _, [] => false
  | p :: ps, c :: cs => p == c && startsWith ps cs

/-- JSON whitespace accepted by Python's `json` module: space, tab, LF, CR. -/
def jsonWs (c : Char) : Bool :=
  c == ' ' || c == '\t' || c == '\n' || c == '\r'

/-- Skip JSON whitespace. -/
def skipWsJ (l : List Char) : List Char := l.dropWhile jsonWs

/-- Value of one hexadecimal digit. -/
def hexVal (c : Char) : Option Nat :=
  if '0' ≤ c ∧ c ≤ '9' then some (c.toNat - 48)
  else if 'a' ≤ c ∧ c ≤ 'f' then some (c.toNat - 87)
  else if 'A' ≤ c ∧ c ≤ 'F' then some (c.toNat - 70)
  else none

/-- Parse the body of a JSON string literal (the opening quote already
consumed), handling the escape sequences `json.loads` accepts and rejecting
raw control characters as Python's strict mode does. -/
def parseStrBody : Nat → List Char → List Char → Except String (String × List Char)
  | 0, _, _ => .error "Unterminated string"
  | _ + 1, _, [] => .error "Unterminated string"
  | f + 1, acc, c :: rest =>
    if c == '"' then .ok (String.mk acc.reverse, rest)
    else if c == '\\' then
      match rest with
      | '"' :: r => parseStrBody f ('"' :: acc) r
      | '\\' :: r => parseStrBody f ('\\' :: acc) r
      | '/' :: r => parseStrBody f ('/' :: acc) r
      | 'b' :: r => parseStrBody f ('\x08' :: acc) r
      | 'f' :: r => parseStrBody f ('\x0c' :: acc) r
      | 'n' :: r => parseStrBody f ('\n' :: acc) r
      | 'r' :: r => parseStrBody f ('\r' :: acc) r
      | 't' :: r => parseStrBody f ('\t' :: acc) r
      | 'u' :: h1 :: h2 :: h3 :: h4 :: r =>
        match hexVal h1, hexVal h2, hexVal h3, hexVal h4 with
        | some a, some b, some c2, some d =>
          parseStrBody f (Char.ofNat (((a * 16 + b) * 16 + c2) * 16 + d) :: acc) r
        | _, _, _, _ => .error "Invalid uXXXX escape"
      | _ => .error "Invalid escape"
    else if c.toNat < 32 then .error "Invalid control character"
    else parseStrBody f (c :: acc) rest

/-- Parse a JSON number.  Python's lexer matches `-?(0|[1-9][0-9]*)` for the
integer part; a following `.`/`e`/`E` would start a float, which lies outside
the integer fragment this model covers (no such literal occurs here). -/
def parseNum (l : List Char) : Except String (Int × List Char) :=
  let neg : Bool := match l with | '-' :: _ => true | _ => false
  let l1 := if neg then l.drop 1 else l
  let ds : List Char :=
    match l1 with
    | '0' :: _ => ['0']
    | _ => l1.takeWhile Char.isDigit
  if ds.isEmpty then .error "Expecting value"
  else
    let rest := l1.drop ds.length
    match rest with
    | '.' :: _ => .error "non-integer JSON number outside this model"
    | 'e' :: _ => .error "non-integer JSON number outside this model"
    | 'E' :: _ => .error "non-integer JSON number outside this model"
    | _ =>
      let n : Nat := ds.foldl (fun n c => n * 10 + (c.toNat - 48)) 0
      .ok (if neg then -(n : Int) else (n : Int), rest)

mutual

/-- Parse one JSON value from the input; mirrors `json.loads`'s recursive
descent.  Fuel bounds the recursion depth; callers supply enough fuel for the
whole input. -/
def parseVal : Nat → List Char → Except String (JValue × List Char)
  | 0, _ => .error "out of fuel"
  | f + 1, l =>
    let l2 := skipWsJ l
    if startsWith ("true".toList) l2 then .ok (.bool true, l2.drop 4)
    else if startsWith ("false".toList) l2 then .ok (.bool false, l2.drop 5)
    else if startsWith ("null".toList) l2 then .ok (.null, l2.drop 4)
    else
      match l2 with
      | [] => .error "Expecting value"
      | '"' :: rest =>
        match parseStrBody (rest.length + 1) [] rest with
        | .error e => .error e
        | .ok (s, r) => .ok (.str s, r)
      | '\x7b' :: rest =>
        match skipWsJ rest with
        | '\x7d' :: r => .ok (.obj [], r)
        | _ => parseObjRest f rest []
      | '[' :: rest =>
        match skipWsJ rest with
        | ']' :: r => .ok (.arr [], r)
        | _ => parseArrRest f rest []
      | c :: _ =>
        if c == '-' || c.isDigit then
          match parseNum l2 with
          | .error e => .error e
          | .ok (n, r) => .ok (.num n, r)
        else .error "Expecting value"

/-- Parse the members of a JSON object after `{` (at least one pair
expected), accumulating into a Python dict (duplicate keys: last value
wins, first position kept). -/
def parseObjRest : Nat → List Char → List (String × JValue) →
    Except String (JValue × List Char)
  | 0, _, _ => .error "out of fuel"
  | f + 1, l, acc =>
    match skipWsJ l with
    | '"' :: rest =>
      match parseStrBody (rest.length + 1) [] rest with
      | .error e => .error e
      | .ok (k, r1) =>
        match skipWsJ r1 with
        | ':' :: r2 =>
          match parseVal f r2 with
          | .error e => .error e
          | .ok (v, r3) =>
            let acc2 := objSet acc k v
            match skipWsJ r3 with
            | ',' :: r4 => parseObjRest f r4 acc2
            | '\x7d' :: r4 => .ok (.obj acc2, r4)
            | _ => .error "Expecting delimiter"
        | _ => .error "Expecting colon delimiter"
    | _ => .error "Expecting property name enclosed in double quotes"

/-- Parse the elements of a JSON array after `[` (at least one element
expected). -/
def parseArrRest : Nat → List Char → List JValue →
    Except String (JValue × List Char)
  | 0, _, _ => .error "out of fuel"
  | f + 1, l, acc =>
    match parseVal f l with
    | .error e => .error e
    | .ok (v, r1) =>
      match skipWsJ r1 with
      | ',' :: r2 => parseArrRest f r2 (acc ++ [v])
      | ']' :: r2 => .ok (.arr (acc ++ [v]), r2)
      | _ => .error "Expecting delimiter"

end

/-- Python `json.loads` on a character list: parse one value, then require
only whitespace to remain (otherwise Python raises "Extra data"). -/
def json_loads_chars (l : List Char) : Except String JValue :=
  match parseVal (2 * l.length + 4) l with
  | .error e => .error e
  | .ok (v, rest) =>
    if (skipWsJ rest).isEmpty then .ok v else .error "Extra data"

/-- Python `json.loads` on a string. -/
def json_loads (s : String) : Except String JValue :=
  json_loads_chars s.toList

/-- Python whitespace as used by `str.strip()` and the regex class `\s`
(ASCII range): space, tab, LF, CR, VT, FF. -/
def pyWs (c : Char) : Bool :=
  c == ' ' || c == '\t' || c == '\n' || c == '\r' || c == '\x0b' || c == '\x0c'

/-- Python `str.strip()` on a character list. -/
def pyStripL (l : List Char) : List Char :=
  ((l.dropWhile pyWs).reverse.dropWhile pyWs).reverse

/-- `re.sub(r"```json|```", "", text)` from `safe_extract_json`
(src/API_testing.py:143): remove each leftmost non-overlapping fence token,
trying the longer alternative first at each position. -/
def stripFencesAux : Nat → List Char → List Char
  | 0, l => l
  | f + 1, l =>
    if startsWith ("```json".toList) l then stripFencesAux f (l.drop 7)
    else if startsWith ("```".toList) l then stripFencesAux f (l.drop 3)
    else
      match l with
      | [] => []
      | c :: rest => c :: stripFencesAux f rest

/-- Fence removal at full fuel. -/
def removeFences (l : List Char) : List Char := stripFencesAux l.length l

/-- `re.search(r"\{.*\}", text, re.DOTALL)` (src/API_testing.py:145): with a
greedy dot-all `.*` the leftmost match runs from the first `{` to the last
`}` of the whole text, provided that `}` comes after that `{`. -/
def findSpan (l : List Char) : Option (List Char) :=
  match l.findIdx? (fun c => c == '\x7b') with
  | none => none
  | some i =>
    match l.reverse.findIdx? (fun c => c == '\x7d') with
    | none => none
    | some jr =>
      let j := l.length - 1 - jr
      if i < j then some ((l.drop i).take (j - i + 1)) else none

/-- `re.sub(r",\s*X", "X", raw)` for a closing bracket `X`
(src/API_testing.py:153-154): a comma matches when the first
non-whitespace character after it is `X`; the comma and the whitespace run
are replaced by `X` alone, and scanning resumes after it. -/
def subTrailingAux (close : Char) : Nat → List Char → List Char
  | 0, l => l
  | _ + 1, [] => []
  | f + 1, c :: rest =>
    if c == ',' then
      match rest.dropWhile pyWs with
      | c2 :: r3 =>
        if c2 == close then close :: subTrailingAux close f r3
        else c :: subTrailingAux close f rest
      | [] => c :: subTrailingAux close f rest
    else c :: subTrailingAux close f rest

/-- Trailing-comma repair at full fuel. -/
def subTrailing (close : Char) (l : List Char) : List Char :=
  subTrailingAux close l.length l

/-- `safe_extract_json` (src/API_testing.py:139-156): reject empty input,
strip code fences and surrounding whitespace, take the greedy brace span,
apply the three textual repairs in order (newlines to spaces, trailing comma
before `}`, trailing comma before `]`), then parse. -/
def safe_extract_json (text : String) : Except String JValue :=
  if text == "" then .error "Empty AI response"
  else
    let t := pyStripL (removeFences text.toList)
    match findSpan t with
    | none => .error "No JSON found"
    | some raw =>
      let raw := raw.map (fun c => if c == '\n' then ' ' else c)
      let raw := subTrailing '\x7d' raw
      let raw := subTrailing ']' raw
      json_loads_chars raw

/-- Strip the literal characters `<` and `>` from a string, mirroring
`v.replace("<", "").replace(">", "")` (src/API_testing.py:198). -/
def stripAngles (s : String) : String :=
  String.mk (s.toList.filter (fun c => !(c == '<' || c == '>')))

/-- The body-stripping pass of the sanitizer (src/API_testing.py:195-198):
when the `body` value is a dict, every string-valued field loses its `<`
and `>` characters; other fields are untouched. -/
def sanitizeBody (rv : List (String × JValue)) : List (String × JValue) :=
  match objGet rv "body" with
  | some (JValue.obj bfs) =>
    objSet rv "body" (JValue.obj (bfs.map (fun p =>
      match p.2 with
      | JValue.str s => (p.1, JValue.str (stripAngles s))
      | _ => p)))
  | _ => rv

/-- One iteration of the sanitizer loop (src/API_testing.py:188-207).
A record that is not a dict, or whose present `request_variation` value is
not a dict, raises `AttributeError` in Python (`tc.get` / `rv.setdefault`
on a non-dict); that raise is modelled as `Except.error`. -/
def sanitizeOne (method : String) (tc : JValue) : Except String JValue :=
  match tc with
  | JValue.obj tf =>
    match (objGet tf "request_variation").getD (JValue.obj []) with
    | JValue.obj rv0 =>
      let rv1 := objSetdefault rv0 "headers" (JValue.obj [])
      let rv2 := if method == "GET" || method == "DELETE"
                 then objPop rv1 "body" else rv1
      let rv3 := sanitizeBody rv2
      .ok (JValue.obj [
        ("test_case_id", (objGet tf "test_case_id").getD JValue.null),
        ("category", (objGet tf "category").getD JValue.null),
        ("test_case_name", (objGet tf "test_case_name").getD JValue.null),
        ("request_variation", JValue.obj rv3),
        ("expected_status_code", (objGet tf "expected_status_code").getD JValue.null),
        ("expected_behavior", (objGet tf "expected_behavior").getD (JValue.str ""))])
    | _ => .error "AttributeError: object has no attribute setdefault"
  | _ => .error "AttributeError: object has no attribute get"

/-- Map a fallible function over a list, stopping at the first error —
the behaviour of a Python `for` loop whose body may raise. -/
def mapExcept (f : α → Except String β) : List α → Except String (List β)
  | [] => .ok []
  | a :: as =>
    match f a with
    | .error e => .error e
    | .ok b =>
      match mapExcept f as with
      | .error e => .error e
      | .ok bs => .ok (b :: bs)

/-- `sanitize_test_cases` (src/API_testing.py:185-209). -/
def sanitize_test_cases (test_cases : List JValue) (method : String) :
    Except String (List JValue) :=
  mapExcept (sanitizeOne method) test_cases

/-- After `objPop`, the popped key is unbound. -/
theorem objGet_objPop (fs : List (String × JValue)) (k : String) :
    objGet (objPop fs k) k = none := by
  induction fs with
  | nil => rfl
  | cons p ps ih =>
    cases hpk : (p.1 == k) with
    | true =>
      have h1 : objPop (p :: ps) k = objPop ps k := by
        simp [objPop, List.filter_cons, hpk]
      rw [h1]
      exact ih
    | false =>
      have h1 : objPop (p :: ps) k = p :: objPop ps k := by
        simp [objPop, List.filter_cons, hpk]
      rw [h1]
      have h2 : objGet (p :: objPop ps k) k = objGet (objPop ps k) k := by
        simp only [objGet]
        rw [List.find?_cons_of_neg _ (by simp [hpk])]
      rw [h2]
      exact ih

/-- The body pass leaves a dict without a `body` key unchanged. -/
theorem sanitizeBody_of_none (rv : List (String × JValue))
    (h : objGet rv "body" = none) : sanitizeBody rv = rv := by
  unfold sanitizeBody
  rw [h]

/-- `mapExcept` preserves length on success. -/
theorem mapExcept_ok_length {α β : Type} (f : α → Except String β) :
    ∀ (xs : List α) (ys : List β), mapExcept f xs = .ok ys → ys.length = xs.length := by
  intro xs
  induction xs with
  | nil =>
    intro ys h
    simp only [mapExcept] at h
    injection h with h
    subst h
    rfl
  | cons a as ih =>
    intro ys h
    simp only [mapExcept] at h
    cases hfa : f a with
    | error e => rw [hfa] at h; exact absurd h (by simp)
    | ok b =>
      rw [hfa] at h
      cases hrec : mapExcept f as with
      | error e => rw [hrec] at h; exact absurd h (by simp)
      | ok bs =>
        rw [hrec] at h
        injection h with h
        subst h
        simp [ih bs hrec]

/-- On success every output of `mapExcept` comes from some input. -/
theorem mapExcept_ok_mem {α β : Type} (f : α → Except String β) :
    ∀ (xs : List α) (ys : List β), mapExcept f xs = .ok ys →
    ∀ y ∈ ys, ∃ x ∈ xs, f x = .ok y := by
  intro xs
  induction xs with
  | nil =>
    intro ys h y hy
    simp only [mapExcept] at h
    injection h with h
    subst h
    simp at hy
  | cons a as ih =>
    intro ys h y hy
    simp only [mapExcept] at h
    cases hfa : f a with
    | error e => rw [hfa] at h; exact absurd h (by simp)
    | ok b =>
      rw [hfa] at h
      cases hrec : mapExcept f as with
      | error e => rw [hrec] at h; exact absurd h (by simp)
      | ok bs =>
        rw [hrec] at h
        injection h with h
        subst h
        rcases List.mem_cons.mp hy with rfl | hy2
        · exact ⟨a, List.mem_cons_self a as, hfa⟩
        · obtain ⟨x, hx, hfx⟩ := ih bs hrec y hy2
          exact ⟨x, List.mem_cons_of_mem a hx, hfx⟩

/-- On success `mapExcept` maps the `i`-th input to the `i`-th output. -/
theorem mapExcept_ok_get {α β : Type} (f : α → Except String β) :
    ∀ (xs : List α) (ys : List β), mapExcept f xs = .ok ys →
    ∀ (i : Nat) (h1 : i < xs.length) (h2 : i < ys.length),
      f (xs.get ⟨i, h1⟩) = .ok (ys.get ⟨i, h2⟩) := by
  intro xs
  induction xs with
  | nil => intro ys h i h1 h2; exact absurd h1 (by simp)
  | cons a as ih =>
    intro ys h i h1 h2
    simp only [mapExcept] at h
    cases hfa : f a with
    | error e => rw [hfa] at h; exact absurd h (by simp)
    | ok b =>
      rw [hfa] at h
      cases hrec : mapExcept f as with
      | error e => rw [hrec] at h; exact absurd h (by simp)
      | ok bs =>
        rw [hrec] at h
        injection h with h
        subst h
        cases i with
        | zero => simpa using hfa
        | succ n =>
          exact ih bs hrec n (Nat.lt_of_succ_lt_succ h1) (Nat.lt_of_succ_lt_succ h2)

/-- A sanitized record has a dict `request_variation` with no `body` key. -/
def rvHasNoBody (r : JValue) : Bool :=
  match r with
  | JValue.obj fs =>
    match objGet fs "request_variation" with
    | some (JValue.obj rv) => (objGet rv "body").isNone
    | _ => false
  | _ => false

/-- For GET/DELETE, one sanitized record carries no `body` key. -/
theorem sanitizeOne_no_body (method : String) (tc r : JValue)
    (hm : method = "GET" ∨ method = "DELETE")
    (h : sanitizeOne method tc = .ok r) : rvHasNoBody r = true := by
  cases tc with
  | obj tf =>
    have hmeth : (method == "GET" || method == "DELETE") = true := by
      rcases hm with rfl | rfl <;> rfl
    simp only [sanitizeOne] at h
    split at h
    · rename_i rv0 _
      have hb : objGet (objPop (objSetdefault rv0 "headers" (JValue.obj []))
          "body") "body" = none :=
        objGet_objPop _ _
      rw [if_pos hmeth, sanitizeBody_of_none _ hb] at h
      injection h with h
      subst h
      show (objGet (objPop (objSetdefault rv0 "headers" (JValue.obj []))
        "body") "body").isNone = true
      rw [hb]
      rfl
    · exact absurd h (by simp)
  | null => exact absurd h (by simp [sanitizeOne])
  | bool b => exact absurd h (by simp [sanitizeOne])
  | num n => exact absurd h (by simp [sanitizeOne])
  | str s => exact absurd h (by simp [sanitizeOne])
  | arr xs => exact absurd h (by simp [sanitizeOne])

/-- C1: for every input list of test-case records and every method in
\x7bGET, DELETE\x7d, each record returned by `sanitize_test_cases` has a
`request_variation` object containing no `body` key, regardless of what the
raw record contained. -/
theorem claim_C1_get_delete_no_body (test_cases : List JValue) (method : String)
    (out : List JValue) (hm : method = "GET" ∨ method = "DELETE")
    (h : sanitize_test_cases test_cases method = .ok out) :
    ∀ r ∈ out, rvHasNoBody r = true := by
  intro r hr
  obtain ⟨x, _, hfx⟩ := mapExcept_ok_mem (sanitizeOne method) test_cases out h r hr
  exact sanitizeOne_no_body method x r hm hfx

/-- Witness for C1 at a concrete input carrying a raw `body`. -/
theorem claim_C1_witness :
    rvHasNoBody (JValue.obj [("test_case_id", JValue.null),
      ("category", JValue.null), ("test_case_name", JValue.null),
      ("request_variation", JValue.obj [("headers", JValue.obj [])]),
      ("expected_status_code", JValue.null),
      ("expected_behavior", JValue.str "")]) = true :=
  claim_C1_get_delete_no_body
    [JValue.obj [("request_variation", JValue.obj [("body", JValue.obj [])])]]
    "GET"
    [JValue.obj [("test_case_id", JValue.null),
      ("category", JValue.null), ("test_case_name", JValue.null),
      ("request_variation", JValue.obj [("headers", JValue.obj [])]),
      ("expected_status_code", JValue.null),
      ("expected_behavior", JValue.str "")]]
    (Or.inl rfl) rfl _ (List.mem_singleton.mpr rfl)

/-- The key list of a record (insertion order of the Python dict). -/
def keyList : JValue → List String
  | JValue.obj fs => fs.map (fun p => p.1)
  | _ => []

/-- The canonical TestCase field list, in the order the sanitizer emits it
(src/API_testing.py:200-207). -/
def testCaseFields : List String :=
  ["test_case_id", "category", "test_case_name", "request_variation",
   "expected_status_code", "expected_behavior"]

/-- The input record has no `expected_behavior` key. -/
def lacksEB : JValue → Bool
  | JValue.obj fs => (objGet fs "expected_behavior").isNone
  | _ => true

/-- The `expected_behavior` field of a record. -/
def ebOf : JValue → Option JValue
  | JValue.obj fs => objGet fs "expected_behavior"
  | _ => none

/-- One sanitized record exposes exactly the TestCase field list. -/
theorem sanitizeOne_keyList (method : String) (tc r : JValue)
    (h : sanitizeOne method tc = .ok r) : keyList r = testCaseFields := by
  cases tc with
  | obj tf =>
    simp only [sanitizeOne] at h
    split at h
    · injection h with h
      subst h
      rfl
    · exact absurd h (by simp)
  | null => exact absurd h (by simp [sanitizeOne])
  | bool b => exact absurd h (by simp [sanitizeOne])
  | num n => exact absurd h (by simp [sanitizeOne])
  | str s => exact absurd h (by simp [sanitizeOne])
  | arr xs => exact absurd h (by simp [sanitizeOne])

/-- A record lacking `expected_behavior` is sanitized to the empty string. -/
theorem sanitizeOne_eb_default (method : String) (tc r : JValue)
    (h : sanitizeOne method tc = .ok r) (hl : lacksEB tc = true) :
    ebOf r = some (JValue.str "") := by
  cases tc with
  | obj tf =>
    simp only [sanitizeOne] at h
    split at h
    · injection h with h
      subst h
      show objGet [("test_case_id", (objGet tf "test_case_id").getD JValue.null),
        ("category", (objGet tf "category").getD JValue.null),
        ("test_case_name", (objGet tf "test_case_name").getD JValue.null),
        ("request_variation", JValue.obj _),
        ("expected_status_code", (objGet tf "expected_status_code").getD JValue.null),
        ("expected_behavior", (objGet tf "expected_behavior").getD (JValue.str ""))]
        "expected_behavior" = some (JValue.str "")
      simp only [lacksEB, Option.isNone_iff_eq_none, objGet,
        Option.map_eq_none'] at hl
      simp [objGet, List.find?, hl]
    · exact absurd h (by simp)
  | null => exact absurd h (by simp [sanitizeOne])
  | bool b => exact absurd h (by simp [sanitizeOne])
  | num n => exact absurd h (by simp [sanitizeOne])
  | str s => exact absurd h (by simp [sanitizeOne])
  | arr xs => exact absurd h (by simp [sanitizeOne])

/-- C5: for every input list and any method, on success the sanitizer's
output has the same length as the input, every output record exposes exactly
the TestCase field set, and a record whose input lacks `expected_behavior`
gets the empty string for that field. -/
theorem claim_C5_output_shape (test_cases : List JValue) (method : String)
    (out : List JValue) (h : sanitize_test_cases test_cases method = .ok out) :
    out.length = test_cases.length ∧
    (∀ r ∈ out, keyList r = testCaseFields) ∧
    (∀ (i : Nat) (h1 : i < test_cases.length) (h2 : i < out.length),
      lacksEB (test_cases.get ⟨i, h1⟩) = true →
      ebOf (out.get ⟨i, h2⟩) = some (JValue.str "")) := by
  refine ⟨mapExcept_ok_length _ _ _ h, ?_, ?_⟩
  · intro r hr
    obtain ⟨x, _, hfx⟩ := mapExcept_ok_mem (sanitizeOne method) test_cases out h r hr
    exact sanitizeOne_keyList method x r hfx
  · intro i h1 h2 hl
    exact sanitizeOne_eb_default method _ _
      (mapExcept_ok_get (sanitizeOne method) test_cases out h i h1 h2) hl

/-- Witness for C5 at a concrete one-record input lacking
`expected_behavior`. -/
theorem claim_C5_witness :
    ([JValue.obj [("test_case_id", JValue.null), ("category", JValue.null),
      ("test_case_name", JValue.null),
      ("request_variation", JValue.obj [("headers", JValue.obj [])]),
      ("expected_status_code", JValue.null),
      ("expected_behavior", JValue.str "")]] : List JValue).length
      = ([JValue.obj []] : List JValue).length ∧
    keyList (JValue.obj [("test_case_id", JValue.null), ("category", JValue.null),
      ("test_case_name", JValue.null),
      ("request_variation", JValue.obj [("headers", JValue.obj [])]),
      ("expected_status_code", JValue.null),
      ("expected_behavior", JValue.str "")]) = testCaseFields ∧
    ebOf (JValue.obj [("test_case_id", JValue.null), ("category", JValue.null),
      ("test_case_name", JValue.null),
      ("request_variation", JValue.obj [("headers", JValue.obj [])]),
      ("expected_status_code", JValue.null),
      ("expected_behavior", JValue.str "")]) = some (JValue.str "") := by
  have h := claim_C5_output_shape [JValue.obj []] "POST"
    [JValue.obj [("test_case_id", JValue.null), ("category", JValue.null),
      ("test_case_name", JValue.null),
      ("request_variation", JValue.obj [("headers", JValue.obj [])]),
      ("expected_status_code", JValue.null),
      ("expected_behavior", JValue.str "")]] rfl
  exact ⟨h.1, h.2.1 _ (List.mem_singleton.mpr rfl),
    h.2.2 0 (by decide) (by decide) rfl⟩

/-- Did a Python computation return normally? -/
def okB {ε α : Type} : Except ε α → Bool
  | .ok _ => true
  | .error _ => false

/-- C6 counterexample: a record whose `request_variation` is the number 5
makes `sanitize_test_cases` raise (`rv.setdefault` on a non-dict is an
`AttributeError`), so the sanitizer is not total on loosely-typed records. -/
theorem claim_C6_counterexample :
    sanitize_test_cases [JValue.obj [("request_variation", JValue.num 5)]] "GET"
      = .error "AttributeError: object has no attribute setdefault" := rfl

/-- A record the sanitizer accepts: a dict whose `request_variation`
value, when present, is itself a dict. -/
def goodRecord : JValue → Bool
  | JValue.obj fs =>
    match objGet fs "request_variation" with
    | none => true
    | some (JValue.obj _) => true
    | some _ => false
  | _ => false

/-- C6 (amended): the sanitizer returns normally for every method and every
list of records that are dicts whose `request_variation` value, when
present, is a dict; on other inputs it can raise `AttributeError`. -/
theorem claim_C6_total_on_good_records (method : String) :
    ∀ (test_cases : List JValue),
      (∀ tc ∈ test_cases, goodRecord tc = true) →
      okB (sanitize_test_cases test_cases method) = true := by
  intro tcs
  induction tcs with
  | nil => intro _; rfl
  | cons a as ih =>
    intro hg
    have ha := hg a (List.mem_cons_self a as)
    have has := ih (fun tc h => hg tc (List.mem_cons_of_mem a h))
    have hone : okB (sanitizeOne method a) = true := by
      cases a with
      | obj fs =>
        simp only [goodRecord] at ha
        cases hrv : objGet fs "request_variation" with
        | none => simp only [sanitizeOne, hrv, Option.getD_none]; rfl
        | some v =>
          rw [hrv] at ha
          cases v with
          | obj rv0 => simp only [sanitizeOne, hrv, Option.getD_some]; rfl
          | null => exact absurd ha (by simp)
          | bool b => exact absurd ha (by simp)
          | num n => exact absurd ha (by simp)
          | str s => exact absurd ha (by simp)
          | arr xs => exact absurd ha (by simp)
      | null => exact absurd ha (by simp [goodRecord])
      | bool b => exact absurd ha (by simp [goodRecord])
      | num n => exact absurd ha (by simp [goodRecord])
      | str s => exact absurd ha (by simp [goodRecord])
      | arr xs => exact absurd ha (by simp [goodRecord])
    cases hr : sanitizeOne method a with
    | error e => rw [hr] at hone; exact absurd hone (by simp [okB])
    | ok r =>
      cases hs : sanitize_test_cases as method with
      | error e =>
        rw [hs] at has
        exact absurd has (by simp [okB])
      | ok out =>
        show okB (mapExcept (sanitizeOne method) (a :: as)) = true
        simp only [mapExcept, hr]
        rw [show mapExcept (sanitizeOne method) as = .ok out from hs]
        rfl

/-- Witness for the amended C6 at a concrete good input. -/
theorem claim_C6_witness :
    okB (sanitize_test_cases [JValue.obj [],
      JValue.obj [("request_variation", JValue.obj [("body", JValue.str "<x>")])]]
      "POST") = true :=
  claim_C6_total_on_good_records "POST"
    [JValue.obj [],
     JValue.obj [("request_variation", JValue.obj [("body", JValue.str "<x>")])]]
    (by intro tc htc
        rcases List.mem_cons.mp htc with rfl | htc2
        · rfl
        · rcases List.mem_cons.mp htc2 with rfl | htc3
          · rfl
          · exact absurd htc3 (by simp))

/-- The parse-or-AI-repair step of the orchestrator
(src/API_testing.py:249-252): `repair_with_ai` — a further LLM round trip,
abstracted here as the oracle `repair` — is invoked only when
`safe_extract_json` raises.  The boolean records whether the repair path
was taken. -/
def extractOrRepair (repair : String → Except String JValue) (text : String) :
    Except String JValue × Bool :=
  match safe_extract_json text with
  | .ok v => (.ok v, false)
  | .error _ => (repair text, true)

/-- C7: the textual repairs alone recover the trailing-comma input
`{"test_cases": [{"a":1},]}` (braces escaped in the literal below), so the
AI repair path is not invoked, for every repair oracle. -/
theorem claim_C7_trailing_comma_repair (repair : String → Except String JValue) :
    extractOrRepair repair "\x7b\"test_cases\": [\x7b\"a\":1\x7d,]\x7d" =
      (.ok (JValue.obj [("test_cases",
        JValue.arr [JValue.obj [("a", JValue.num 1)]])]), false) := by
  unfold extractOrRepair
  rw [show safe_extract_json "\x7b\"test_cases\": [\x7b\"a\":1\x7d,]\x7d" =
    .ok (JValue.obj [("test_cases",
      JValue.arr [JValue.obj [("a", JValue.num 1)]])]) from rfl]

/-- C8: extraction is idempotent on the already-clean JSON text `{"a":1}`:
`safe_extract_json` yields exactly what direct `json.loads` parsing yields. -/
theorem claim_C8_clean_json_identity :
    safe_extract_json "\x7b\"a\":1\x7d" = .ok (JValue.obj [("a", JValue.num 1)]) ∧
    json_loads "\x7b\"a\":1\x7d" = .ok (JValue.obj [("a", JValue.num 1)]) :=
  ⟨rfl, rfl⟩

/-- C10: extraction is not value-preserving on all valid JSON: on the valid
object text `{"a": ",]"}` the trailing-comma repair rewrites the string
literal, so `safe_extract_json` returns a value different from direct
parsing. -/
theorem claim_C10_extraction_not_value_preserving :
    json_loads "\x7b\"a\": \",]\"\x7d" = .ok (JValue.obj [("a", JValue.str ",]")]) ∧
    safe_extract_json "\x7b\"a\": \",]\"\x7d" = .ok (JValue.obj [("a", JValue.str "]")]) ∧
    JValue.obj [("a", JValue.str ",]")] ≠ JValue.obj [("a", JValue.str "]")] := by
  refine ⟨rfl, rfl, ?_⟩
  intro h
  simp only [JValue.obj.injEq, List.cons.injEq, Prod.mk.injEq,
    JValue.str.injEq, and_true, true_and] at h
  exact absurd h (by decide)

/-- One endpoint of a batch request (the fields of `EndpointRequest` the
orchestrator echoes; src/API_testing.py:12-18). -/
structure Endpoint where
  name : String
  method : String
  url : String

/-- One endpoint's outcome in the batch response
(src/API_testing.py:261-267). -/
structure BatchResult where
  api_name : String
  method : String
  endpoint : String
  test_cases : List JValue
  error : Option String

/-- The retry loop of `generate_testcases` (src/API_testing.py:220-259):
`test_cases = []` and `error = None` initially; each attempt either succeeds
(setting the test cases, clearing the error, and breaking) or stores the
exception text and continues.  One whole pipeline attempt — prompt build,
LLM call, extraction/repair, sanitization — contains a network call, so it
is abstracted as the oracle `att`, indexed by the attempt number. -/
def retryAttempts (att : Nat → Except String (List JValue)) :
    Nat → Nat → List JValue → Option String → List JValue × Option String
  | 0, _, tcs, err => (tcs, err)
  | fuel + 1, i, tcs, _err =>
    match att i with
    | .ok t => (t, none)
    | .error e => retryAttempts att fuel (i + 1) tcs (some e)

/-- Process one endpoint: three attempts starting from empty test cases and
no error (src/API_testing.py:219-267). -/
def processEndpoint (att : Endpoint → Nat → Except String (List JValue))
    (ep : Endpoint) : BatchResult :=
  let r := retryAttempts (att ep) 3 0 [] none
  { api_name := ep.name, method := ep.method, endpoint := ep.url,
    test_cases := r.1, error := r.2 }

/-- `generate_testcases` (src/API_testing.py:215-272): the whole body of
each attempt sits inside `try`/`except`, so the route itself never raises;
it returns `total_apis` and one result per endpoint. -/
def generate_testcases (att : Endpoint → Nat → Except String (List JValue))
    (endpoints : List Endpoint) : Nat × List BatchResult :=
  let results := endpoints.map (processEndpoint att)
  (results.length, results)

/-- C2: the batch route returns one result per input endpoint in input
order, each depending only on its own endpoint's pipeline; an endpoint
whose pipeline fails on all 3 attempts yields an empty test-case list and a
non-null error, and an endpoint with a successful attempt (after a prefix
of failures) yields a null error. -/
theorem claim_C2_batch_isolation
    (endpoints : List Endpoint)
    (att : Endpoint → Nat → Except String (List JValue)) :
    (generate_testcases att endpoints).1 = endpoints.length ∧
    (generate_testcases att endpoints).2.length = endpoints.length ∧
    (∀ (i : Nat) (h1 : i < endpoints.length)
      (h2 : i < (generate_testcases att endpoints).2.length),
      (generate_testcases att endpoints).2.get ⟨i, h2⟩ =
        processEndpoint att (endpoints.get ⟨i, h1⟩)) ∧
    (∀ ep : Endpoint, (∀ a, a < 3 → ∃ e, att ep a = .error e) →
      (processEndpoint att ep).test_cases = [] ∧
      (processEndpoint att ep).error ≠ none) ∧
    (∀ (ep : Endpoint) (a : Nat), a < 3 →
      (∀ b, b < a → ∃ e, att ep b = .error e) →
      (∃ t, att ep a = .ok t) →
      (processEndpoint att ep).error = none) := by
  refine ⟨by simp [generate_testcases], by simp [generate_testcases], ?_, ?_, ?_⟩
  · intro i h1 h2
    simp [generate_testcases, List.get_eq_getElem, List.getElem_map]
  · intro ep hfail
    obtain ⟨e0, he0⟩ := hfail 0 (by omega)
    obtain ⟨e1, he1⟩ := hfail 1 (by omega)
    obtain ⟨e2, he2⟩ := hfail 2 (by omega)
    have : retryAttempts (att ep) 3 0 [] none = ([], some e2) := by
      simp [retryAttempts, he0, he1, he2]
    constructor
    · show (retryAttempts (att ep) 3 0 [] none).1 = []
      rw [this]
    · show (retryAttempts (att ep) 3 0 [] none).2 ≠ none
      rw [this]
      simp
  · intro ep a ha hprev hok
    obtain ⟨t, ht⟩ := hok
    show (retryAttempts (att ep) 3 0 [] none).2 = none
    interval_cases a
    · simp [retryAttempts, ht]
    · obtain ⟨e0, he0⟩ := hprev 0 (by omega)
      simp [retryAttempts, he0, ht]
    · obtain ⟨e0, he0⟩ := hprev 0 (by omega)
      obtain ⟨e1, he1⟩ := hprev 1 (by omega)
      simp [retryAttempts, he0, he1, ht]

/-- Witness for C2: a concrete batch where the first endpoint's pipeline
always fails and the second always succeeds. -/
theorem claim_C2_witness :
    (processEndpoint
      (fun ep _ => if ep.name == "bad" then .error "boom" else .ok [JValue.null])
      { name := "bad", method := "GET", url := "u1" }).test_cases = [] ∧
    (processEndpoint
      (fun ep _ => if ep.name == "bad" then .error "boom" else .ok [JValue.null])
      { name := "bad", method := "GET", url := "u1" }).error ≠ none ∧
    (processEndpoint
      (fun ep _ => if ep.name == "bad" then .error "boom" else .ok [JValue.null])
      { name := "good", method := "GET", url := "u2" }).error = none := by
  have h := claim_C2_batch_isolation
    [{ name := "bad", method := "GET", url := "u1" },
     { name := "good", method := "GET", url := "u2" }]
    (fun ep _ => if ep.name == "bad" then .error "boom" else .ok [JValue.null])
  obtain ⟨hbad1, hbad2⟩ := h.2.2.2.1
    { name := "bad", method := "GET", url := "u1" }
    (fun a _ => ⟨"boom", rfl⟩)
  refine ⟨hbad1, hbad2, ?_⟩
  exact h.2.2.2.2 { name := "good", method := "GET", url := "u2" } 0 (by omega)
    (fun b hb => absurd hb (by omega)) ⟨[JValue.null], rfl⟩

/-- Python exceptions relevant to the `/generate` route of src/app.py. -/
inductive PyExc where
  | httpExc (status : Nat) (detail : String)
  | jsonDecodeError (msg : String)
  | typeError (msg : String)
  | other (msg : String)

/-- `str(e)` (the message the handlers embed in their response bodies). -/
def pyStrExc : PyExc → String
  | .httpExc st d => toString st ++ ": " ++ d
  | .jsonDecodeError m => m
  | .typeError m => m
  | .other m => m

/-- `type(e).__name__`. -/
def excTypeName : PyExc → String
  | .httpExc _ _ => "HTTPException"
  | .jsonDecodeError _ => "JSONDecodeError"
  | .typeError _ => "TypeError"
  | .other _ => "Exception"

/-- Substring test (Python `needle in haystack` on strings). -/
def hasSub (needle : List Char) : List Char → Bool
  | [] => needle.isEmpty
  | c :: rest => startsWith needle (c :: rest) || hasSub needle rest

/-- A JSON value equal to the Python string `k`. -/
def isStrVal (k : String) : JValue → Bool
  | JValue.str s => s == k
  | _ => false

/-- Python `k in data` for a string `k`: key test on dicts, membership on
lists, substring on strings, `TypeError` otherwise. -/
def pyContains (data : JValue) (k : String) : Except PyExc Bool :=
  match data with
  | JValue.obj fs => .ok (fs.any (fun p => p.1 == k))
  | JValue.arr xs => .ok (xs.any (isStrVal k))
  | JValue.str s => .ok (hasSub k.toList s.toList)
  | _ => .error (.typeError "argument of type is not iterable")

/-- Python `data[k]` for a string key `k`. -/
def pySubscript (data : JValue) (k : String) : Except PyExc JValue :=
  match data with
  | JValue.obj fs =>
    match objGet fs k with
    | some v => .ok v
    | none => .error (.other "KeyError")
  | _ => .error (.typeError "indices must be integers")

/-- Python truthiness of a JSON value. -/
def isFalsy : JValue → Bool
  | JValue.null => true
  | JValue.bool b => !b
  | JValue.num n => n == 0
  | JValue.str s => s == ""
  | JValue.arr xs => xs.isEmpty
  | JValue.obj fs => fs.isEmpty

/-- The substring `l[s..t]` (both ends inclusive). -/
def groupAt (l : List Char) (s t : Nat) : List Char :=
  (l.drop s).take (t + 1 - s)

/-- Whole-string match of the pattern `\[\s*\{.*\}\s*\]` with DOTALL: the
text decomposes as `[`, whitespace, `{`, anything, `}`, whitespace, `]`.
Since `\s*` must consist of whitespace and is followed by a non-whitespace
bracket, the decomposition exists iff the first non-whitespace character
after `[` is `{` and, scanning backwards, the first non-whitespace
character before the final `]` is `}`. -/
def matchesArrayPat (m : List Char) : Bool :=
  match m with
  | '[' :: r1 =>
    match r1.dropWhile pyWs with
    | '\x7b' :: r3 =>
      match r3.reverse with
      | ']' :: r4 =>
        match r4.dropWhile pyWs with
        | '\x7d' :: _ => true
        | _ => false
      | _ => false
    | _ => false
  | _ => false

/-- `re.search(r'\[\s*\{.*\}\s*\]', text, re.DOTALL)` (src/app.py:127):
the leftmost starting position wins, and for it the greedy inner `.*`
makes the match end at the greatest viable end position. -/
def searchArraySpan (l : List Char) : Option (List Char) :=
  let n := l.length
  match (List.range n).find? (fun s =>
      (List.range n).any (fun t => matchesArrayPat (groupAt l s t))) with
  | none => none
  | some s =>
    ((List.range n).reverse.find? (fun t => matchesArrayPat (groupAt l s t))).map
      (groupAt l s)

/-- The outcome of one HTTP request. -/
structure HttpResponse where
  status : Nat
  body : JValue

/-- The `try` body of `generate_test_cases` in src/app.py:50-130.
`reqBody` models `await request.json()` (error = malformed request JSON),
`groq_ok` whether the Groq client initialized, and `completion` the LLM
round trip (error = upstream exception).  When `json.loads` on the
completion fails and no array-shaped span is found, the raw model text is
returned under a `test_cases` key (src/app.py:130). -/
def app_generate_inner (reqBody : Except String JValue) (groq_ok : Bool)
    (completion : Except String String) : Except PyExc HttpResponse := do
  let data ← match reqBody with
    | .ok d => pure d
    | .error m => throw (PyExc.jsonDecodeError m)
  let hasK ← pyContains data "testcase"
  let missing ←
    if !hasK then pure true
    else do
      let v ← pySubscript data "testcase"
      pure (isFalsy v)
  if missing then
    throw (PyExc.httpExc 400 "The testcase field is required")
  if !groq_ok then
    throw (PyExc.httpExc 500 "Groq client not initialized")
  let response_text ← match completion with
    | .ok t => pure t
    | .error m => throw (PyExc.other m)
  match json_loads response_text with
  | .ok v => pure ⟨200, v⟩
  | .error _ =>
    match searchArraySpan response_text.toList with
    | some g =>
      match json_loads_chars g with
      | .ok v => pure ⟨200, v⟩
      | .error m => throw (PyExc.jsonDecodeError m)
    | none => pure ⟨200, JValue.obj [("test_cases", JValue.str response_text)]⟩

/-- `POST /generate` (src/app.py:49-150) with its two `except` clauses:
`json.JSONDecodeError` becomes a 422 response; every other exception —
including the `HTTPException(400)` the handler itself raised — falls into
the generic `except Exception` clause and becomes a 500 response. -/
def app_generate_test_cases (reqBody : Except String JValue) (groq_ok : Bool)
    (completion : Except String String) : HttpResponse :=
  match app_generate_inner reqBody groq_ok completion with
  | .ok r => r
  | .error (PyExc.jsonDecodeError m) =>
    ⟨422, JValue.obj [("error", JValue.str "Invalid JSON payload"),
                      ("details", JValue.str m)]⟩
  | .error e =>
    ⟨500, JValue.obj [("error", JValue.str "Failed to generate test cases"),
                      ("message", JValue.str (pyStrExc e)),
                      ("type", JValue.str (excTypeName e))]⟩

/-- C4 (code bug): a request whose JSON body lacks `testcase` (or has it
empty) is answered with HTTP 500, not 400 — the handler's own
`HTTPException(400)` is swallowed by its generic `except Exception` clause
and re-reported as a 500 response. -/
theorem claim_C4_missing_testcase_gives_500 :
    (app_generate_test_cases (.ok (JValue.obj [])) true (.ok "x")).status = 500 ∧
    (app_generate_test_cases (.ok (JValue.obj [("testcase", JValue.str "")]))
      true (.ok "x")).status = 500 ∧
    (app_generate_test_cases (.ok (JValue.obj [])) true (.ok "x")).status ≠ 400 :=
  ⟨rfl, rfl, by decide⟩

/-- C3 (code bug): when `json.loads` fails on the completion and no
array-shaped span exists, the route answers 200 with the raw model text in
place of test cases instead of an explicit error entry. -/
theorem claim_C3_raw_text_fallback :
    app_generate_test_cases (.ok (JValue.obj [("testcase", JValue.str "login")]))
      true (.ok "no json here") =
      ⟨200, JValue.obj [("test_cases", JValue.str "no json here")]⟩ := rfl

/-- `re.sub(r'^\d+\.\s*', '', s).strip()` (src/test_scenarios.py:110):
remove one leading "digits dot whitespace" prefix, then strip. -/
def stripNumPrefix (l : List Char) : List Char :=
  let ds := l.takeWhile Char.isDigit
  if ds.isEmpty then l
  else
    match l.drop ds.length with
    | '.' :: rest => rest.dropWhile pyWs
    | _ => l

/-- The cleaned scenario text used as prompt content and results key. -/
def cleanScenario (s : String) : String :=
  String.mk (pyStripL (stripNumPrefix s.toList))

/-- `f"TC{i:03d}"` (src/test_scenarios.py:204). -/
def tcID (i : Nat) : String :=
  if i < 10 then "TC00" ++ toString i
  else if i < 100 then "TC0" ++ toString i
  else "TC" ++ toString i

/-- The single error placeholder record stored for a failed scenario. -/
def errPh (m : String) : List JValue := [JValue.obj [("error", JValue.str m)]]

/-- The renumbering loop `for i, tc in enumerate(..., 1):
tc['testCaseID'] = f"TC{i:03d}"` (src/test_scenarios.py:203-204); item
assignment on a non-dict raises `TypeError`. -/
def renumber : Nat → List JValue → Except PyExc (List JValue)
  | _, [] => .ok []
  | i, tc :: rest =>
    match tc with
    | JValue.obj fs =>
      match renumber (i + 1) rest with
      | .ok rs => .ok (JValue.obj (objSet fs "testCaseID"
          (JValue.str (tcID i))) :: rs)
      | .error e => .error e
    | _ => .error (.typeError "object does not support item assignment")

/-- Per-scenario processing of `/generate_test_cases`
(src/test_scenarios.py:108-222).  `oracle` maps the cleaned scenario text
(the only request-dependent part of the prompt) to the completion outcome.
Every failure — upstream call, JSON decoding, a wrongly-shaped response,
or a `TypeError` during renumbering — is caught and stored as a single
error placeholder record. -/
def scenarioCases (oracle : String → Except PyExc String) (scenario : String) :
    List JValue :=
  let scenario_text := cleanScenario scenario
  match oracle scenario_text with
  | .error e => errPh ("Failed to generate test cases: " ++ pyStrExc e)
  | .ok response_text =>
    match json_loads response_text with
    | .error m => errPh ("Failed to parse test cases: " ++ m)
    | .ok response_data =>
      match pyContains response_data "test_cases" with
      | .error e => errPh ("Failed to generate test cases: " ++ pyStrExc e)
      | .ok hasK =>
        if hasK then
          match pySubscript response_data "test_cases" with
          | .error e => errPh ("Failed to generate test cases: " ++ pyStrExc e)
          | .ok (JValue.arr tcs) =>
            match renumber 1 tcs with
            | .ok rs => rs
            | .error e => errPh ("Failed to generate test cases: " ++ pyStrExc e)
          | .ok _ => errPh "Invalid response format from API"
        else errPh "Invalid response format from API"

/-- One entry of the formatted response (src/test_scenarios.py:225-230). -/
structure ScenarioResult where
  scenario : String
  test_cases : List JValue

/-- Python `results[k] = v` on the ordered results dict
(src/test_scenarios.py:206): update in place, or append a new key. -/
def dictAssign (d : List (String × List JValue)) (k : String)
    (v : List JValue) : List (String × List JValue) :=
  if d.any (fun p => p.1 == k) then
    d.map (fun p => if p.1 == k then (k, v) else p)
  else d ++ [(k, v)]

/-- `POST /generate_test_cases` (src/test_scenarios.py:92-239).  The
results dict is keyed by the CLEANED scenario text, so scenarios cleaning
to the same text collapse into one entry.  On an empty scenario list the
handler's own `HTTPException(400)` is caught by its outer
`except Exception` and re-raised as a 500. -/
def ts_generate_test_cases (oracle : String → Except PyExc String)
    (test_scenarios : List String) : Except PyExc (List ScenarioResult) :=
  if test_scenarios.isEmpty then
    .error (.httpExc 500 ("Failed to generate test cases: " ++
      pyStrExc (PyExc.httpExc 400 "No test scenarios provided")))
  else
    let results := test_scenarios.foldl
      (fun acc sc => dictAssign acc (cleanScenario sc) (scenarioCases oracle sc))
      []
    .ok (results.map (fun p => { scenario := p.1, test_cases := p.2 }))

/-- Number of scenario results in a response (0 when the route raised). -/
def numSR : Except PyExc (List ScenarioResult) → Nat
  | .ok rs => rs.length
  | .error _ => 0

/-- C9 counterexample: two distinct input scenarios whose cleaned texts
coincide produce ONE result entry, not two — the results dict collapses
them — so the claim fails for this 2-element input list. -/
theorem claim_C9_counterexample :
    numSR (ts_generate_test_cases (fun _ => .error (.other "boom"))
      ["1. Foo", "2. Foo"]) = 1 ∧
    (["1. Foo", "2. Foo"] : List String).length = 2 := ⟨rfl, rfl⟩

/-- A record that is a dict. -/
def isObjB : JValue → Bool
  | JValue.obj _ => true
  | _ => false

/-- The `testCaseID` field of a record. -/
def idOf : JValue → Option JValue
  | JValue.obj fs => objGet fs "testCaseID"
  | _ => none

/-- In-place update part of `objSet`: looking up the updated key finds the
new value. -/
theorem objGet_mapSet (fs : List (String × JValue)) (k : String) (v : JValue)
    (h : fs.any (fun p => p.1 == k) = true) :
    objGet (fs.map (fun p => if p.1 == k then (k, v) else p)) k = some v := by
  induction fs with
  | nil => simp at h
  | cons p ps ih =>
    simp only [List.any_cons, Bool.or_eq_true] at h
    by_cases hpk : (p.1 == k) = true
    · simp only [List.map_cons, if_pos hpk]
      simp [objGet, List.find?]
    · simp only [List.map_cons, if_neg hpk]
      have hps : ps.any (fun p => p.1 == k) = true := by
        rcases h with h1 | h2
        · exact absurd h1 hpk
        · exact h2
      show objGet (p :: ps.map (fun p => if p.1 == k then (k, v) else p)) k
        = some v
      unfold objGet
      rw [List.find?_cons_of_neg _ (by simp [hpk])]
      exact ih hps

/-- Append part of `objSet`: when the key is absent, looking it up after
appending finds the appended value. -/
theorem objGet_append_single (fs : List (String × JValue)) (k : String)
    (v : JValue) (h : fs.any (fun p => p.1 == k) = false) :
    objGet (fs ++ [(k, v)]) k = some v := by
  induction fs with
  | nil => simp [objGet, List.find?]
  | cons p ps ih =>
    simp only [List.any_cons, Bool.or_eq_false_iff] at h
    simp only [List.cons_append]
    unfold objGet
    rw [List.find?_cons_of_neg _ (by simp [h.1])]
    exact ih h.2

/-- `d[k] = v` makes a later `d[k]` read back `v`. -/
theorem objGet_objSet (fs : List (String × JValue)) (k : String) (v : JValue) :
    objGet (objSet fs k v) k = some v := by
  unfold objSet
  by_cases h : fs.any (fun p => p.1 == k) = true
  · rw [if_pos h]
    exact objGet_mapSet fs k v h
  · rw [if_neg h]
    exact objGet_append_single fs k v (Bool.not_eq_true _ ▸ h)

/-- Renumbering succeeds on a list of dicts and stamps sequential
identifiers `tcID i`, `tcID (i+1)`, ... onto it. -/
theorem renumber_all_obj (tcs : List JValue) :
    ∀ (i : Nat), (∀ tc ∈ tcs, isObjB tc = true) →
    ∃ rs, renumber i tcs = .ok rs ∧ rs.length = tcs.length ∧
      ∀ (j : Nat) (hj : j < rs.length),
        idOf (rs.get ⟨j, hj⟩) = some (JValue.str (tcID (i + j))) := by
  induction tcs with
  | nil =>
    intro i _
    exact ⟨[], rfl, rfl, by intro j hj; exact absurd hj (by simp)⟩
  | cons tc rest ih =>
    intro i hall
    have htc := hall tc (List.mem_cons_self _ _)
    cases tc with
    | obj fs =>
      obtain ⟨rs, hrs, hlen, hid⟩ :=
        ih (i + 1) (fun t ht => hall t (List.mem_cons_of_mem _ ht))
      refine ⟨JValue.obj (objSet fs "testCaseID" (JValue.str (tcID i))) :: rs,
        ?_, ?_, ?_⟩
      · simp only [renumber, hrs]
      · simp [hlen]
      · intro j hj
        cases j with
        | zero =>
          show idOf (JValue.obj (objSet fs "testCaseID"
            (JValue.str (tcID i)))) = some (JValue.str (tcID (i + 0)))
          simp only [idOf, objGet_objSet, Nat.add_zero]
        | succ m =>
          have hm := hid m (Nat.lt_of_succ_lt_succ hj)
          show idOf (rs.get ⟨m, Nat.lt_of_succ_lt_succ hj⟩)
            = some (JValue.str (tcID (i + (m + 1))))
          rw [hm]
          have : i + 1 + m = i + (m + 1) := by omega
          rw [this]
    | null => exact absurd htc (by simp [isObjB])
    | bool b => exact absurd htc (by simp [isObjB])
    | num n => exact absurd htc (by simp [isObjB])
    | str s => exact absurd htc (by simp [isObjB])
    | arr xs => exact absurd htc (by simp [isObjB])

/-- Renumbering a list containing a non-dict raises `TypeError`. -/
theorem renumber_error_of_bad (tcs : List JValue) :
    ∀ (i : Nat), tcs.all isObjB = false → ∃ e, renumber i tcs = .error e := by
  induction tcs with
  | nil => intro i h; simp at h
  | cons tc rest ih =>
    intro i h
    cases tc with
    | obj fs =>
      simp only [List.all_cons] at h
      have hrest : rest.all isObjB = false := by
        simpa [isObjB] using h
      obtain ⟨e, he⟩ := ih (i + 1) hrest
      exact ⟨e, by simp only [renumber, he]⟩
    | null => exact ⟨_, rfl⟩
    | bool b => exact ⟨_, rfl⟩
    | num n => exact ⟨_, rfl⟩
    | str s => exact ⟨_, rfl⟩
    | arr xs => exact ⟨_, rfl⟩

/-- The success path of `scenarioCases`, made explicit: the completion
parsed to an object whose `test_cases` member is a list of dicts.  Mirrors
the guards of src/test_scenarios.py:196-206 branch by branch. -/
def successList (oracle : String → Except PyExc String) (st : String) :
    Option (List JValue) :=
  match oracle st with
  | .error _ => none
  | .ok response_text =>
    match json_loads response_text with
    | .error _ => none
    | .ok response_data =>
      match pyContains response_data "test_cases" with
      | .error _ => none
      | .ok hasK =>
        if hasK then
          match pySubscript response_data "test_cases" with
          | .error _ => none
          | .ok (JValue.arr tcs) =>
            if tcs.all isObjB then some tcs else none
          | .ok _ => none
        else none

/-- Each scenario's stored list is either a single error placeholder or
the renumbering of the model's delivered list. -/
theorem scenarioCases_spec (oracle : String → Except PyExc String)
    (sc : String) :
    (∃ m, scenarioCases oracle sc = errPh m) ∨
    (∃ tcs rs, successList oracle (cleanScenario sc) = some tcs ∧
      renumber 1 tcs = .ok rs ∧ scenarioCases oracle sc = rs ∧
      rs.length = tcs.length ∧
      ∀ (j : Nat) (hj : j < rs.length),
        idOf (rs.get ⟨j, hj⟩) = some (JValue.str (tcID (1 + j)))) := by
  cases horc : oracle (cleanScenario sc) with
  | error e =>
    refine Or.inl ⟨"Failed to generate test cases: " ++ pyStrExc e, ?_⟩
    simp [scenarioCases, horc]
  | ok t =>
    cases hjl : json_loads t with
    | error m =>
      refine Or.inl ⟨"Failed to parse test cases: " ++ m, ?_⟩
      simp [scenarioCases, horc, hjl]
    | ok rd =>
      cases hpc : pyContains rd "test_cases" with
      | error e =>
        refine Or.inl ⟨"Failed to generate test cases: " ++ pyStrExc e, ?_⟩
        simp [scenarioCases, horc, hjl, hpc]
      | ok hasK =>
        cases hasK with
        | false =>
          refine Or.inl ⟨"Invalid response format from API", ?_⟩
          simp [scenarioCases, horc, hjl, hpc]
        | true =>
          cases hps : pySubscript rd "test_cases" with
          | error e =>
            refine Or.inl ⟨"Failed to generate test cases: " ++ pyStrExc e, ?_⟩
            simp [scenarioCases, horc, hjl, hpc, hps]
          | ok v =>
            cases v with
            | arr tcs =>
              cases hall : tcs.all isObjB with
              | false =>
                obtain ⟨e, he⟩ := renumber_error_of_bad tcs 1 hall
                refine Or.inl ⟨"Failed to generate test cases: " ++ pyStrExc e, ?_⟩
                simp [scenarioCases, horc, hjl, hpc, hps, he]
              | true =>
                obtain ⟨rs, hrs, hlen, hid⟩ := renumber_all_obj tcs 1
                  (fun tc ht => List.all_eq_true.mp hall tc ht)
                refine Or.inr ⟨tcs, rs, ?_, hrs, ?_, hlen, hid⟩
                · simp [successList, horc, hjl, hpc, hps, hall]
                · simp [scenarioCases, horc, hjl, hpc, hps, hrs]
            | null =>
              refine Or.inl ⟨"Invalid response format from API", ?_⟩
              simp [scenarioCases, horc, hjl, hpc, hps]
            | bool b =>
              refine Or.inl ⟨"Invalid response format from API", ?_⟩
              simp [scenarioCases, horc, hjl, hpc, hps]
            | num n =>
              refine Or.inl ⟨"Invalid response format from API", ?_⟩
              simp [scenarioCases, horc, hjl, hpc, hps]
            | str s =>
              refine Or.inl ⟨"Invalid response format from API", ?_⟩
              simp [scenarioCases, horc, hjl, hpc, hps]
            | obj fs2 =>
              refine Or.inl ⟨"Invalid response format from API", ?_⟩
              simp [scenarioCases, horc, hjl, hpc, hps]

/-- When the cleaned scenario keys are fresh and pairwise distinct, the
results-dict fold is a plain append of one entry per scenario, in input
order. -/
theorem foldl_dictAssign (oracle : String → Except PyExc String) :
    ∀ (scs : List String) (acc : List (String × List JValue)),
      (∀ sc ∈ scs, ∀ p ∈ acc, p.1 ≠ cleanScenario sc) →
      (scs.map cleanScenario).Nodup →
      scs.foldl (fun a sc =>
          dictAssign a (cleanScenario sc) (scenarioCases oracle sc)) acc
        = acc ++ scs.map (fun sc => (cleanScenario sc, scenarioCases oracle sc)) := by
  intro scs
  induction scs with
  | nil => intro acc _ _; simp
  | cons sc rest ih =>
    intro acc hdisj hnd
    have hnd2 : (cleanScenario sc :: rest.map cleanScenario).Nodup := by
      simpa using hnd
    have hnotmem := (List.nodup_cons.mp hnd2).1
    have hndrest := (List.nodup_cons.mp hnd2).2
    simp only [List.foldl_cons, List.map_cons]
    have hnotin : acc.any (fun p => p.1 == cleanScenario sc) = false := by
      rw [List.any_eq_false]
      intro p hp
      simp only [beq_iff_eq]
      exact hdisj sc (List.mem_cons_self _ _) p hp
    have hda : dictAssign acc (cleanScenario sc) (scenarioCases oracle sc)
        = acc ++ [(cleanScenario sc, scenarioCases oracle sc)] := by
      unfold dictAssign
      rw [hnotin]
      simp
    rw [hda]
    rw [ih (acc ++ [(cleanScenario sc, scenarioCases oracle sc)]) ?_ hndrest]
    · simp
    · intro sc2 hsc2 p hp
      rcases List.mem_append.mp hp with hp1 | hp2
      · exact hdisj sc2 (List.mem_cons_of_mem _ hsc2) p hp1
      · rcases List.mem_singleton.mp hp2 with rfl
        show cleanScenario sc ≠ cleanScenario sc2
        intro heq
        exact hnotmem (heq ▸ List.mem_map_of_mem cleanScenario hsc2)

/-- C9 (amended): for every nonempty scenario list whose cleaned texts are
pairwise distinct, and every completion oracle that per scenario either
fails somewhere in the pipeline or delivers an object whose `test_cases`
member is a list of exactly 3 dicts, the endpoint returns exactly one
`ScenarioResult` per scenario, in input order, keyed by the cleaned text;
each entry holds either the model's 3 records renumbered `TC001`, `TC002`,
`TC003` (whatever identifiers the model emitted) or a single error
placeholder record. -/
theorem claim_C9_scenario_results
    (oracle : String → Except PyExc String) (scs : List String)
    (hne : scs ≠ [])
    (hnd : (scs.map cleanScenario).Nodup)
    (h3 : ∀ sc ∈ scs, ∀ tcs,
      successList oracle (cleanScenario sc) = some tcs → tcs.length = 3) :
    ∃ rs, ts_generate_test_cases oracle scs = .ok rs ∧
      rs.length = scs.length ∧
      (∀ (i : Nat) (h1 : i < scs.length) (h2 : i < rs.length),
        (rs.get ⟨i, h2⟩).scenario = cleanScenario (scs.get ⟨i, h1⟩) ∧
        (rs.get ⟨i, h2⟩).test_cases = scenarioCases oracle (scs.get ⟨i, h1⟩)) ∧
      (∀ sc ∈ scs,
        (∃ m, scenarioCases oracle sc = errPh m) ∨
        ((scenarioCases oracle sc).length = 3 ∧
         ∀ (j : Nat) (hj : j < (scenarioCases oracle sc).length),
           idOf ((scenarioCases oracle sc).get ⟨j, hj⟩)
             = some (JValue.str (tcID (1 + j))))) := by
  have hfold := foldl_dictAssign oracle scs []
    (by intro sc _ p hp; exact absurd hp (by simp)) hnd
  refine ⟨(scs.map (fun sc =>
      (cleanScenario sc, scenarioCases oracle sc))).map
      (fun p => { scenario := p.1, test_cases := p.2 }), ?_, ?_, ?_, ?_⟩
  · unfold ts_generate_test_cases
    rw [if_neg (by simpa [List.isEmpty_iff] using hne)]
    rw [hfold]
    simp
  · simp
  · intro i h1 h2
    constructor
    · simp [List.get_eq_getElem, List.getElem_map]
    · simp [List.get_eq_getElem, List.getElem_map]
  · intro sc hsc
    rcases scenarioCases_spec oracle sc with hcase | ⟨tcs, rs, hsl, _, heq, hlen, hid⟩
    · exact Or.inl hcase
    · refine Or.inr ⟨?_, ?_⟩
      · rw [heq, hlen]
        exact h3 sc hsc tcs hsl
      · intro j hj
        have hg : (scenarioCases oracle sc).get ⟨j, hj⟩
            = rs.get ⟨j, heq ▸ hj⟩ :=
          List.get_of_eq heq ⟨j, hj⟩
        rw [hg]
        exact hid j (heq ▸ hj)

/-- A concrete oracle for the C9 witness: the cleaned scenario `Foo` gets a
completion with 3 records, the cleaned scenario `Bar` a failing call. -/
def oracleW : String → Except PyExc String :=
  fun st =>
    if st == "Foo"
    then .ok "\x7b\"test_cases\": [\x7b\x7d, \x7b\x7d, \x7b\x7d]\x7d"
    else .error (.other "boom")

/-- Witness for the amended C9 at a concrete 2-scenario input. -/
theorem claim_C9_witness :
    numSR (ts_generate_test_cases oracleW ["1. Foo", "2. Bar"]) = 2 := by
  obtain ⟨rs, hok, hlen, -, -⟩ := claim_C9_scenario_results oracleW
    ["1. Foo", "2. Bar"]
    (by decide)
    (by decide)
    (by intro sc hsc tcs hsl
        rcases List.mem_cons.mp hsc with rfl | hsc2
        · rw [show successList oracleW (cleanScenario "1. Foo")
            = some [JValue.obj [], JValue.obj [], JValue.obj []] from rfl] at hsl
          injection hsl with hsl
          subst hsl
          rfl
        · rcases List.mem_cons.mp hsc2 with rfl | hsc3
          · rw [show successList oracleW (cleanScenario "2. Bar")
              = none from rfl] at hsl
            exact absurd hsl (by simp)
          · exact absurd hsc3 (by simp))
  rw [hok]
  simpa using hlen
